import Mathlib

/-!
Shallow embedding of the voice-relay core of `src/main.py` (Twilio ↔ Deepgram
bridge).  Bytes are modelled as `Nat`, byte strings as `List Nat` (the media
payloads are carried already base64-decoded, as the claims speak about decoded
byte lengths).  External services (the Deepgram websocket, the Twilio
websocket, `json.loads`, the OpenAI embedding call and the Pinecone index
query) appear as explicit inputs: inbound traffic as lists of events, fallible
external calls as `Except`-valued function arguments, and every outbound send
performed by a handler is recorded in an ordered `Action` trace.
-/

namespace VoiceAgent

/-- `BUFFER_SIZE = 160 * 20` from `twilio_receiver` in `src/main.py`:
the fixed audio frame size in bytes. -/
def BUFFER_SIZE : Nat := 160 * 20

/-- The `while len(inbuffer) >= BUFFER_SIZE` drain loop of `twilio_receiver`:
repeatedly slice a `BUFFER_SIZE`-byte frame off the front of the buffer.
Returns the emitted frames in order together with the remaining buffer. -/
def drainLoop (inbuffer : List Nat) : List (List Nat) × List Nat :=
  if h : BUFFER_SIZE ≤ inbuffer.length then
    (inbuffer.take BUFFER_SIZE :: (drainLoop (inbuffer.drop BUFFER_SIZE)).1,
     (drainLoop (inbuffer.drop BUFFER_SIZE)).2)
  else
    ([], inbuffer)
termination_by inbuffer.length
decreasing_by
  simp only [List.length_drop]
  have hpos : 0 < BUFFER_SIZE := by decide
  omega

/-- One inbound Twilio websocket event as decoded by `twilio_receiver`:
`start` carries `data["start"]["streamSid"]`, `media` carries the
base64-decoded `data["media"]["payload"]` bytes, `stop` is the stop event,
`other` is a successfully decoded message with an unrecognized `event`
value, and `malformed` is a message whose decoding raises an exception. -/
inductive InEvent where
  | start (streamSid : String)
  | media (chunk : List Nat)
  | stop
  | other
  | malformed
deriving DecidableEq

/-- The mutable state of `twilio_receiver`: the byte buffer `inbuffer`, the
contents of `audio_queue` (frames enqueued by `put_nowait`, oldest first) and
the contents of `streamsid_queue` (stream ids enqueued by `put_nowait`). -/
structure TRState where
  inbuffer : List Nat
  audio_queue : List (List Nat)
  streamsid_queue : List String
deriving DecidableEq

/-- One iteration of the `async for` body of `twilio_receiver`.  `none` means
the loop breaks (on `stop`, or on an exception while decoding).  After a
`start`, `media` or unrecognized event the drain loop runs. -/
def twilioStep (st : TRState) : InEvent → Option TRState
  | InEvent.start sid =>
      let st1 : TRState := { st with streamsid_queue := st.streamsid_queue ++ [sid] }
      some { st1 with
              inbuffer := (drainLoop st1.inbuffer).2,
              audio_queue := st1.audio_queue ++ (drainLoop st1.inbuffer).1 }
  | InEvent.media chunk =>
      let buf := st.inbuffer ++ chunk
      some { st with
              inbuffer := (drainLoop buf).2,
              audio_queue := st.audio_queue ++ (drainLoop buf).1 }
  | InEvent.stop => none
  | InEvent.other =>
      some { st with
              inbuffer := (drainLoop st.inbuffer).2,
              audio_queue := st.audio_queue ++ (drainLoop st.inbuffer).1 }
  | InEvent.malformed => none

/-- Run `twilio_receiver`'s loop over a list of inbound events from a given
state, stopping early when an event breaks the loop. -/
def twilioRun (st : TRState) : List InEvent → TRState
  | [] => st
  | e :: es =>
      match twilioStep st e with
      | none => st
      | some st' => twilioRun st' es

/-- `twilio_receiver` from `src/main.py`, started on an empty buffer and empty
queues, applied to the whole inbound event stream. -/
def twilio_receiver (events : List InEvent) : TRState :=
  twilioRun ⟨[], [], []⟩ events

/-- `True` for the events on which `twilio_receiver`'s loop breaks. -/
def isTerminal : InEvent → Bool
  | InEvent.stop => true
  | InEvent.malformed => true
  | _ => false

/-- The stream id published by an event, when it is a `start` event. -/
def startSid : InEvent → Option String
  | InEvent.start sid => some sid
  | _ => none

/-- Python `a or b` on an optional string against a string default:
`None` and the empty string are falsy. -/
def pyOrStr (a : Option String) (b : String) : String :=
  match a with
  | some s => if s = "" then b else s
  | none => b

/-- Python `a or b` on two optional strings (`decoded.get("response_id") or
decoded.get("id")`): `None` and the empty string are falsy. -/
def pyOrOptStr (a b : Option String) : Option String :=
  match a with
  | some s => if s = "" then b else some s
  | none => b

/-- Python `str.strip()`: drop leading and trailing whitespace, modelled
structurally on the string's character list. -/
def py_strip (s : String) : String :=
  String.mk (((s.data.dropWhile Char.isWhitespace).reverse.dropWhile
    Char.isWhitespace).reverse)

/-- One entry of the `alternatives` list of a decoded Deepgram control event:
the fields `_extract_transcript_from_deepgram` inspects, each `none` when the
key is absent. -/
structure Alt where
  transcript? : Option String := none
  text? : Option String := none
  final? : Option Bool := none
  is_final? : Option Bool := none
deriving DecidableEq

/-- A decoded Deepgram JSON control event (the `decoded` dict): the fields the
handlers in `src/main.py` inspect, each `none` when the key is absent. -/
structure Decoded where
  type? : Option String := none
  transcript? : Option String := none
  text? : Option String := none
  is_final? : Option Bool := none
  alternatives? : Option (List Alt) := none
  response_id? : Option String := none
  id? : Option String := none
deriving DecidableEq

/-- `_extract_transcript_from_deepgram` from `src/main.py`: direct
`transcript`/`text` fields first, `is_final` from the top-level key when
present, then — only when the direct transcript is empty — the first entry of
`alternatives`, whose `final`/`is_final` flags can only raise `is_final` to
`true`.  Returns `(transcript.strip(), bool(is_final), response_id)`. -/
def _extract_transcript_from_deepgram (decoded : Decoded) :
    String × Bool × Option String :=
  let response_id := pyOrOptStr decoded.response_id? decoded.id?
  let transcript := pyOrStr decoded.transcript? (pyOrStr decoded.text? "")
  let is_final :=
    match decoded.is_final? with
    | some b => b
    | none => false
  let tf : String × Bool :=
    if transcript = "" then
      match decoded.alternatives? with
      | some (alt0 :: _) =>
          (pyOrStr alt0.transcript? (pyOrStr alt0.text? ""),
           if alt0.final?.getD false || alt0.is_final?.getD false then true
           else is_final)
      | some [] => (transcript, is_final)
      | none => (transcript, is_final)
    else (transcript, is_final)
  (py_strip tf.1, tf.2, response_id)

/-- An observable output action of the Deepgram-side handlers, in program
order.  `twilioClear` and `twilioMedia` are sends on the Twilio websocket
(`{event: "clear"}` and `{event: "media"}`; the media payload is carried as
raw bytes, base64 encoding being external), `extractT` marks the call to
`_extract_transcript_from_deepgram` with its result, `ragCall` marks the
`rag_retrieve` invocation, and `stsSend` is the `response.create` JSON payload
sent on the Deepgram websocket. -/
inductive Action where
  | twilioClear (streamSid : String)
  | twilioMedia (streamSid : String) (payload : List Nat)
  | extractT (transcript : String) (isFinal : Bool) (responseId : Option String)
  | ragCall (query : String)
  | stsSend (respType : String) (responseId : Option String) (instructions : String)
deriving DecidableEq

/-- `handle_barge_in` from `src/main.py`: on `decoded.get("type") ==
"UserStartedSpeaking"` send one `{event: "clear", streamSid}` message. -/
def handle_barge_in (decoded : Decoded) (streamsid : String) : List Action :=
  if decoded.type? = some "UserStartedSpeaking" then
    [Action.twilioClear streamsid]
  else
    []

/-- The fixed text of the `instructions` f-string in `handle_text_message`,
up to the `{transcript}` interpolation point. -/
def persona_preamble : String :=
  "\nYou are Skillorea AI, the official voice assistant of the Skillorea educational platform.\n\nYour purpose:\n- Introduce and promote the Skillorea.\n- Explain features, benefits, courses, and offerings of Skillorea.\n- Answer user questions ONLY using the information provided in the retrieved context.\n- Do NOT create information that is not present in the context.\n- Do NOT use external knowledge outside the context.\n- If the user asks something not present in the context, politely say:\n  “I don’t have that information in my Skillorea knowledge base.”\n\nSpeaking Style:\n- Friendly, simple, and clear.\n- Sound like an app promoter, not a teacher.\n- Keep answers short and direct unless the user asks for details.\n- If the user seems confused, re-explain the feature simply.\n\nRules:\n1. ALWAYS base your answer only on the RAG context.\n2. NEVER invent or guess.\n3. NEVER answer using general knowledge.\n4. If context is missing or unrelated, say you don’t have that information.\n5. Your identity is ONLY “Skillorea AI,” not a tutor or medical/technical expert.\n\nUser Question:\n"

/-- The fixed text of the `instructions` f-string between the `{transcript}`
and `{context}` interpolation points. -/
def context_header : String :=
  "\n\nRetrieved Context (your ONLY knowledge):\n"

/-- The fixed text of the `instructions` f-string after the `{context}`
interpolation point. -/
def instructions_coda : String :=
  "\n\nUsing ONLY the retrieved context, respond as the Skillorea app’s voice assistant.\nIf the context does not contain the answer, clearly state that the information is not available.\n\n"

/-- The `instructions` f-string of `handle_text_message`, interpolating the
transcript and the retrieved context. -/
def instructions_text (transcript context : String) : String :=
  persona_preamble ++ transcript ++ context_header ++ context ++ instructions_coda

/-- `handle_text_message` from `src/main.py` as an action trace.  The
`rag_retrieve` call is external here: it is passed in as a fallible function
(`Except.error` modelling a raised exception, which the `try/except` replaces
by the `"No relevant context."` fallback).  Order follows the source: barge-in
first, then transcript extraction, then the guards, then the retrieval and the
`response.create` send with the stripped instruction text. -/
def handle_text_message (decoded : Decoded) (streamsid : String)
    (rag : String → Except String String) : List Action :=
  handle_barge_in decoded streamsid ++
  (let e := _extract_transcript_from_deepgram decoded
   Action.extractT e.1 e.2.1 e.2.2 ::
   (if e.1 = "" then []
    else if e.2.1 = false then []
    else
      [Action.ragCall e.1,
       Action.stsSend "response.create" e.2.2
         (py_strip (instructions_text e.1
            (match rag e.1 with
             | Except.ok c => c
             | Except.error _ => "No relevant context.")))]))

/-- One inbound message on the Deepgram websocket, as seen by `sts_receiver`:
a text frame (raw JSON string) or a binary mu-law audio frame. -/
inductive AgentMsg where
  | text (raw : String)
  | binary (bytes : List Nat)
deriving DecidableEq

/-- `sts_receiver` from `src/main.py` over a list of inbound Deepgram
messages, after `streamsid` has been read from the streamsid queue.  JSON
decoding (`json.loads`) is external and passed in as a fallible function; the
source wraps the loop body in no `try/except`, so a decode failure raises out
of the `async for`, terminating the loop: no further message is processed and
no further action is emitted.  Binary messages are repackaged as Twilio media
sends. -/
def sts_receiver (parse : String → Except String Decoded)
    (rag : String → Except String String) (streamsid : String) :
    List AgentMsg → List Action
  | [] => []
  | AgentMsg.text raw :: rest =>
      match parse raw with
      | Except.error _ => []
      | Except.ok decoded =>
          handle_text_message decoded streamsid rag ++
          sts_receiver parse rag streamsid rest
  | AgentMsg.binary b :: rest =>
      Action.twilioMedia streamsid b :: sts_receiver parse rag streamsid rest

/-- The stream id carried by an action when it is a Twilio `clear` send. -/
def clearSid? : Action → Option String
  | Action.twilioClear s => some s
  | _ => none

/-- The query carried by an action when it is a `rag_retrieve` invocation. -/
def ragQuery? : Action → Option String
  | Action.ragCall q => some q
  | _ => none

/-- The `(type, response_id, instructions)` payload carried by an action when
it is a Deepgram-websocket JSON send. -/
def stsPayload? : Action → Option (String × Option String × String)
  | Action.stsSend t r i => some (t, r, i)
  | _ => none

/-- The stream ids of the `{event: "clear"}` sends in a trace, in order. -/
def clears (acts : List Action) : List String :=
  acts.filterMap clearSid?

/-- The queries of the `rag_retrieve` invocations in a trace, in order. -/
def rag_calls (acts : List Action) : List String :=
  acts.filterMap ragQuery?

/-- The payloads of the Deepgram-websocket JSON sends in a trace, in order. -/
def sts_sends (acts : List Action) : List (String × Option String × String) :=
  acts.filterMap stsPayload?

/-- One match returned by the Pinecone `index.query` call in `rag_retrieve`:
its `metadata` dict (an association list), `none` when the match carries no
metadata (Python `None`). -/
structure RagMatch where
  metadata : Option (List (String × String)) := none
deriving DecidableEq

/-- The `for match in res.matches` loop of `rag_retrieve`: append
`match.metadata["answer"]` whenever `match.metadata` is truthy (present and
non-empty) and contains the key `"answer"`. -/
def rag_loop : List RagMatch → List String → List String
  | [], contexts => contexts
  | m :: ms, contexts =>
      match m.metadata with
      | none => rag_loop ms contexts
      | some md =>
          if md = [] then rag_loop ms contexts
          else
            match List.lookup "answer" md with
            | some a => rag_loop ms (contexts ++ [a])
            | none => rag_loop ms contexts

/-- `rag_retrieve` from `src/main.py`, taking as input the match list returned
by the external `index.query` call (the embedding computation and the vector
search are opaque collaborators): join the collected answers with newlines,
or return the fallback sentinel when no answer was collected. -/
def rag_retrieve (ms : List RagMatch) : String :=
  let contexts := rag_loop ms []
  if contexts = [] then "No relevant context."
  else String.intercalate "\n" contexts

/-- Specification-side rephrasing of the collection step of `rag_retrieve`:
the `"answer"` metadata entries of the matches whose metadata is truthy. -/
def answersOf (ms : List RagMatch) : List String :=
  ms.filterMap fun m =>
    match m.metadata with
    | none => none
    | some md => if md = [] then none else List.lookup "answer" md

/-! ## Concrete example inputs used by counterexamples and witnesses -/

/-- A decoded control event whose only content is the user-started-speaking
type tag. -/
def c3_decoded : Decoded :=
  { type? := some "UserStartedSpeaking" }

/-- A decoded control event carrying a top-level `is_final: false` together
with an `alternatives` entry whose transcript is non-empty and whose `final`
flag is `true`. -/
def c4_decoded : Decoded :=
  { is_final? := some false,
    alternatives? := some [{ transcript? := some "hello", final? := some true }] }

/-- A decoded control event carrying a finalized non-empty transcript and a
response id. -/
def c5_decoded : Decoded :=
  { transcript? := some "What courses do you offer?",
    is_final? := some true,
    response_id? := some "r1" }

/-- A JSON decoder that fails on every input, modelling `json.loads` raising
on a malformed text message. -/
def json_fail : String → Except String Decoded :=
  fun _ => Except.error "Expecting value: line 1 column 1 (char 0)"

/-- A knowledge retriever that always succeeds with a fixed context. -/
def rag_ok : String → Except String String :=
  fun _ => Except.ok "Course A info"

/-- A three-element Pinecone match list: one match with an `answer` metadata
entry, one with empty metadata, one with no metadata. -/
def c8_matches : List RagMatch :=
  [{ metadata := some [("answer", "Course A info")] },
   { metadata := some [] },
   { metadata := none }]

/-- A non-empty Pinecone match list none of whose matches carries an
`answer` metadata entry. -/
def c10_matches : List RagMatch :=
  [{ metadata := some [("question", "What is Skillorea?")] }]

/-! ## Lemmas about the chunk-buffer drain loop -/

theorem BUFFER_SIZE_pos : 0 < BUFFER_SIZE := by decide

theorem drainLoop_nil : drainLoop [] = ([], []) := by
  unfold drainLoop
  decide

theorem drainLoop_spec (l : List Nat) :
    (drainLoop l).1.flatten ++ (drainLoop l).2 = l ∧
    (∀ f ∈ (drainLoop l).1, f.length = BUFFER_SIZE) ∧
    (drainLoop l).2.length < BUFFER_SIZE := by
  unfold drainLoop
  split
  case isTrue h =>
    have ih := drainLoop_spec (l.drop BUFFER_SIZE)
    refine ⟨?_, ?_, ih.2.2⟩
    · simp only [List.flatten_cons, List.append_assoc, ih.1]
      exact List.take_append_drop _ _
    · intro f hf
      rcases List.mem_cons.mp hf with hf | hf
      · subst hf
        simpa [List.length_take] using Nat.min_eq_left h
      · exact ih.2.1 f hf
  case isFalse h =>
    exact ⟨rfl, by simp, by show l.length < BUFFER_SIZE; omega⟩
termination_by l.length
decreasing_by
  simp only [List.length_drop]
  have hpos : 0 < BUFFER_SIZE := by decide
  omega

/-- Invariant of `twilio_receiver`'s loop over a run of media events:
the enqueued frames plus the remaining buffer conserve all bytes in order,
every newly enqueued frame is exactly one buffer-size long, and the remaining
buffer stays shorter than one frame. -/
theorem twilioRun_media_inv (chunks : List (List Nat)) :
    ∀ st : TRState, st.inbuffer.length < BUFFER_SIZE →
      (twilioRun st (chunks.map InEvent.media)).audio_queue.flatten ++
          (twilioRun st (chunks.map InEvent.media)).inbuffer =
        st.audio_queue.flatten ++ st.inbuffer ++ chunks.flatten ∧
      (∀ f ∈ (twilioRun st (chunks.map InEvent.media)).audio_queue,
          f ∈ st.audio_queue ∨ f.length = BUFFER_SIZE) ∧
      (twilioRun st (chunks.map InEvent.media)).inbuffer.length < BUFFER_SIZE := by
  induction chunks with
  | nil =>
      intro st hst
      simp only [List.map_nil, twilioRun]
      exact ⟨by simp, fun f hf => Or.inl hf, hst⟩
  | cons c cs ih =>
      intro st hst
      have hd := drainLoop_spec (st.inbuffer ++ c)
      have hstep :
          twilioRun st ((c :: cs).map InEvent.media) =
            twilioRun
              { st with
                  inbuffer := (drainLoop (st.inbuffer ++ c)).2,
                  audio_queue := st.audio_queue ++ (drainLoop (st.inbuffer ++ c)).1 }
              (cs.map InEvent.media) := by
        simp [twilioRun, twilioStep]
      have ih' := ih
        { st with
            inbuffer := (drainLoop (st.inbuffer ++ c)).2,
            audio_queue := st.audio_queue ++ (drainLoop (st.inbuffer ++ c)).1 }
        hd.2.2
      rw [hstep]
      refine ⟨?_, ?_, ih'.2.2⟩
      · have h1 :
            (drainLoop (st.inbuffer ++ c)).1.flatten ++
                ((drainLoop (st.inbuffer ++ c)).2 ++ cs.flatten) =
              (st.inbuffer ++ c) ++ cs.flatten := by
          rw [← List.append_assoc, hd.1]
        rw [ih'.1]
        simp only [List.flatten_append, List.flatten_cons, List.append_assoc]
        rw [h1]
        simp [List.append_assoc]
      · intro f hf
        rcases ih'.2.1 f hf with hf' | hf'
        · rcases List.mem_append.mp hf' with hf'' | hf''
          · exact Or.inl hf''
          · exact Or.inr (hd.2.1 f hf'')
        · exact Or.inr hf'

/-- The total length of a flattened list of frames all of one length. -/
theorem flatten_length_of_uniform (q : List (List Nat))
    (h : ∀ f ∈ q, f.length = BUFFER_SIZE) :
    q.flatten.length = q.length * BUFFER_SIZE := by
  induction q with
  | nil => simp
  | cons f fs ih =>
      simp only [List.flatten_cons, List.length_append, List.length_cons]
      rw [h f (List.mem_cons_self f fs), ih (fun g hg => h g (List.mem_cons_of_mem f hg))]
      ring

/-! ## Claims about the Twilio receiver -/

/-- C2: for every sequence of inbound media chunks of arbitrary lengths,
concatenating all frames enqueued by the `twilio_receiver` drain loop followed
by the final buffered remainder reproduces the concatenation of the decoded
input chunks exactly — no byte lost, duplicated, or reordered. -/
theorem twilio_receiver_byte_conservation (chunks : List (List Nat)) :
    (twilio_receiver (chunks.map InEvent.media)).audio_queue.flatten ++
        (twilio_receiver (chunks.map InEvent.media)).inbuffer =
      chunks.flatten := by
  have h := twilioRun_media_inv chunks ⟨[], [], []⟩ BUFFER_SIZE_pos
  simpa [twilio_receiver] using h.1

/-- C1: for every sequence of inbound media chunks whose total decoded byte
length is a multiple of the frame size `BUFFER_SIZE` (3200 bytes), the drain
loop in `twilio_receiver` enqueues exactly `total / BUFFER_SIZE` frames onto
the outbound audio queue, each exactly `BUFFER_SIZE` bytes long, in input
order (their concatenation is the input concatenation), with zero bytes
remaining buffered afterward. -/
theorem twilio_receiver_aligned_chunks_exact_frames (chunks : List (List Nat))
    (h : (chunks.map List.length).sum % BUFFER_SIZE = 0) :
    (twilio_receiver (chunks.map InEvent.media)).audio_queue.length =
        (chunks.map List.length).sum / BUFFER_SIZE ∧
    (∀ f ∈ (twilio_receiver (chunks.map InEvent.media)).audio_queue,
        f.length = BUFFER_SIZE) ∧
    (twilio_receiver (chunks.map InEvent.media)).audio_queue.flatten =
        chunks.flatten ∧
    (twilio_receiver (chunks.map InEvent.media)).inbuffer = [] := by
  have hinv := twilioRun_media_inv chunks ⟨[], [], []⟩ BUFFER_SIZE_pos
  have hcons :
      (twilio_receiver (chunks.map InEvent.media)).audio_queue.flatten ++
          (twilio_receiver (chunks.map InEvent.media)).inbuffer =
        chunks.flatten := by
    simpa [twilio_receiver] using hinv.1
  have hframes :
      ∀ f ∈ (twilio_receiver (chunks.map InEvent.media)).audio_queue,
        f.length = BUFFER_SIZE := by
    intro f hf
    have := hinv.2.1 f (by simpa [twilio_receiver] using hf)
    simpa using this
  have hrem :
      (twilio_receiver (chunks.map InEvent.media)).inbuffer.length <
        BUFFER_SIZE := by
    simpa [twilio_receiver] using hinv.2.2
  have hflatlen :
      (twilio_receiver (chunks.map InEvent.media)).audio_queue.flatten.length =
        (twilio_receiver (chunks.map InEvent.media)).audio_queue.length *
          BUFFER_SIZE :=
    flatten_length_of_uniform _ hframes
  have htot : chunks.flatten.length = (chunks.map List.length).sum := by
    simp
  have hlen := congrArg List.length hcons
  rw [List.length_append, hflatlen, htot] at hlen
  have hrem0 :
      (twilio_receiver (chunks.map InEvent.media)).inbuffer.length = 0 ∧
      (twilio_receiver (chunks.map InEvent.media)).audio_queue.length =
        (chunks.map List.length).sum / BUFFER_SIZE := by
    simp only [BUFFER_SIZE] at hlen hrem h ⊢
    omega
  have hremnil :
      (twilio_receiver (chunks.map InEvent.media)).inbuffer = [] :=
    List.length_eq_zero.mp hrem0.1
  refine ⟨hrem0.2, hframes, ?_, hremnil⟩
  rw [hremnil, List.append_nil] at hcons
  exact hcons

/-- Witness for C1 at a concrete input: the empty chunk sequence has total
length `0`, a multiple of the frame size, and yields zero frames and an empty
buffer. -/
theorem twilio_receiver_aligned_chunks_exact_frames_witness :
    ((([] : List (List Nat)).map List.length).sum % BUFFER_SIZE = 0) ∧
    ((twilio_receiver (([] : List (List Nat)).map InEvent.media)).audio_queue.length =
        (([] : List (List Nat)).map List.length).sum / BUFFER_SIZE ∧
      (∀ f ∈ (twilio_receiver (([] : List (List Nat)).map InEvent.media)).audio_queue,
          f.length = BUFFER_SIZE) ∧
      (twilio_receiver (([] : List (List Nat)).map InEvent.media)).audio_queue.flatten =
          ([] : List (List Nat)).flatten ∧
      (twilio_receiver (([] : List (List Nat)).map InEvent.media)).inbuffer = []) :=
  ⟨by decide, twilio_receiver_aligned_chunks_exact_frames [] (by decide)⟩

/-! ## Reduction lemmas for the trace selectors -/

@[simp] theorem clearSid?_twilioClear (s : String) :
    clearSid? (Action.twilioClear s) = some s := rfl

@[simp] theorem clearSid?_twilioMedia (s : String) (p : List Nat) :
    clearSid? (Action.twilioMedia s p) = none := rfl

@[simp] theorem clearSid?_extractT (t : String) (f : Bool) (r : Option String) :
    clearSid? (Action.extractT t f r) = none := rfl

@[simp] theorem clearSid?_ragCall (q : String) :
    clearSid? (Action.ragCall q) = none := rfl

@[simp] theorem clearSid?_stsSend (t : String) (r : Option String) (i : String) :
    clearSid? (Action.stsSend t r i) = none := rfl

@[simp] theorem ragQuery?_twilioClear (s : String) :
    ragQuery? (Action.twilioClear s) = none := rfl

@[simp] theorem ragQuery?_twilioMedia (s : String) (p : List Nat) :
    ragQuery? (Action.twilioMedia s p) = none := rfl

@[simp] theorem ragQuery?_extractT (t : String) (f : Bool) (r : Option String) :
    ragQuery? (Action.extractT t f r) = none := rfl

@[simp] theorem ragQuery?_ragCall (q : String) :
    ragQuery? (Action.ragCall q) = some q := rfl

@[simp] theorem ragQuery?_stsSend (t : String) (r : Option String) (i : String) :
    ragQuery? (Action.stsSend t r i) = none := rfl

@[simp] theorem stsPayload?_twilioClear (s : String) :
    stsPayload? (Action.twilioClear s) = none := rfl

@[simp] theorem stsPayload?_twilioMedia (s : String) (p : List Nat) :
    stsPayload? (Action.twilioMedia s p) = none := rfl

@[simp] theorem stsPayload?_extractT (t : String) (f : Bool) (r : Option String) :
    stsPayload? (Action.extractT t f r) = none := rfl

@[simp] theorem stsPayload?_ragCall (q : String) :
    stsPayload? (Action.ragCall q) = none := rfl

@[simp] theorem stsPayload?_stsSend (t : String) (r : Option String) (i : String) :
    stsPayload? (Action.stsSend t r i) = some (t, r, i) := rfl

/-- Barge-in emits no retrieval call. -/
@[simp] theorem barge_in_no_rag (decoded : Decoded) (sid : String) :
    List.filterMap ragQuery? (handle_barge_in decoded sid) = [] := by
  unfold handle_barge_in
  split <;> rfl

/-- Barge-in emits no Deepgram-websocket send. -/
@[simp] theorem barge_in_no_sts (decoded : Decoded) (sid : String) :
    List.filterMap stsPayload? (handle_barge_in decoded sid) = [] := by
  unfold handle_barge_in
  split <;> rfl

/-- Zeta-expanded shape of `handle_text_message`: barge-in actions, then the
extraction marker, then the guarded turn-controller tail. -/
theorem handle_text_message_unfold (decoded : Decoded) (streamsid : String)
    (rag : String → Except String String) :
    handle_text_message decoded streamsid rag =
      handle_barge_in decoded streamsid ++
      Action.extractT (_extract_transcript_from_deepgram decoded).1
        (_extract_transcript_from_deepgram decoded).2.1
        (_extract_transcript_from_deepgram decoded).2.2 ::
      (if (_extract_transcript_from_deepgram decoded).1 = "" then []
       else if (_extract_transcript_from_deepgram decoded).2.1 = false then []
       else
         [Action.ragCall (_extract_transcript_from_deepgram decoded).1,
          Action.stsSend "response.create"
            (_extract_transcript_from_deepgram decoded).2.2
            (py_strip (instructions_text (_extract_transcript_from_deepgram decoded).1
               (match rag (_extract_transcript_from_deepgram decoded).1 with
                | Except.ok c => c
                | Except.error _ => "No relevant context.")))]) := rfl

/-- The guarded turn-controller tail contributes no Twilio `clear` send. -/
theorem clears_turn_tail (e1 : String) (b : Bool) (ro : Option String)
    (instr : String) :
    List.filterMap clearSid?
      (if e1 = "" then []
       else if b = false then []
       else [Action.ragCall e1, Action.stsSend "response.create" ro instr]) = [] := by
  split
  · rfl
  · split
    · rfl
    · rfl

/-! ## Claims about the Deepgram-side handlers -/

/-- C3: for every decoded agent control event whose type field is
`"UserStartedSpeaking"`, `handle_text_message` sends exactly one
`{event: "clear", streamSid}` message to the Twilio transport, and this send
is the first action of the trace, strictly before the transcript-extraction
step for the same message. -/
theorem handle_text_message_clear_before_extraction
    (decoded : Decoded) (sid : String) (rag : String → Except String String)
    (h : decoded.type? = some "UserStartedSpeaking") :
    clears (handle_text_message decoded sid rag) = [sid] ∧
    ∃ rest, handle_text_message decoded sid rag =
      Action.twilioClear sid ::
        Action.extractT (_extract_transcript_from_deepgram decoded).1
          (_extract_transcript_from_deepgram decoded).2.1
          (_extract_transcript_from_deepgram decoded).2.2 :: rest := by
  have hb : handle_barge_in decoded sid = [Action.twilioClear sid] := by
    simp [handle_barge_in, h]
  rw [handle_text_message_unfold, hb]
  constructor
  · simp only [clears, List.cons_append, List.nil_append, List.filterMap_cons,
      clearSid?_twilioClear, clearSid?_extractT, clears_turn_tail]
  · exact ⟨_, rfl⟩

/-- Witness for C3 at a concrete input: a bare user-started-speaking event. -/
theorem handle_text_message_clear_before_extraction_witness :
    c3_decoded.type? = some "UserStartedSpeaking" ∧
    clears (handle_text_message c3_decoded "S" rag_ok) = ["S"] ∧
    ∃ rest, handle_text_message c3_decoded "S" rag_ok =
      Action.twilioClear "S" ::
        Action.extractT (_extract_transcript_from_deepgram c3_decoded).1
          (_extract_transcript_from_deepgram c3_decoded).2.1
          (_extract_transcript_from_deepgram c3_decoded).2.2 :: rest := by
  have h := handle_text_message_clear_before_extraction c3_decoded "S" rag_ok rfl
  exact ⟨rfl, h.1, h.2⟩

/-- C4 counterexample: the claim as stated is false.  This decoded event
carries `is_final: false` at top level, yet — because its direct transcript is
empty and its first `alternatives` entry has `final: true` and a non-empty
transcript — handling it does invoke `rag_retrieve` (and sends a
`response.create` injection). -/
theorem handle_text_message_raw_nonfinal_triggers_rag :
    c4_decoded.is_final? = some false ∧
    rag_calls (handle_text_message c4_decoded "S" rag_ok) = ["hello"] ∧
    sts_sends (handle_text_message c4_decoded "S" rag_ok) ≠ [] := by
  refine ⟨rfl, ?_, ?_⟩
  · decide
  · decide

/-- C4 (amended): for every decoded agent control event whose extracted
finality is `false` — or whose extracted transcript is empty — handling the
message never invokes `rag_retrieve` and never sends a `response.create`
injection; only an extracted finalized non-empty transcript triggers retrieval
and injection. -/
theorem handle_text_message_nonfinal_no_retrieval
    (decoded : Decoded) (sid : String) (rag : String → Except String String)
    (h : (_extract_transcript_from_deepgram decoded).2.1 = false ∨
         (_extract_transcript_from_deepgram decoded).1 = "") :
    rag_calls (handle_text_message decoded sid rag) = [] ∧
    sts_sends (handle_text_message decoded sid rag) = [] := by
  rw [handle_text_message_unfold]
  have htail :
      (if (_extract_transcript_from_deepgram decoded).1 = "" then ([] : List Action)
       else if (_extract_transcript_from_deepgram decoded).2.1 = false then []
       else
         [Action.ragCall (_extract_transcript_from_deepgram decoded).1,
          Action.stsSend "response.create"
            (_extract_transcript_from_deepgram decoded).2.2
            (py_strip (instructions_text (_extract_transcript_from_deepgram decoded).1
               (match rag (_extract_transcript_from_deepgram decoded).1 with
                | Except.ok c => c
                | Except.error _ => "No relevant context.")))]) = [] := by
    rcases h with h | h
    · by_cases h1 : (_extract_transcript_from_deepgram decoded).1 = ""
      · rw [if_pos h1]
      · rw [if_neg h1, if_pos h]
    · rw [if_pos h]
  rw [htail]
  constructor
  · simp [rag_calls]
  · simp [sts_sends]

/-- Witness for the amended C4 at a concrete input: a bare user-started-
speaking event extracts an empty transcript, so no retrieval or injection
happens. -/
theorem handle_text_message_nonfinal_no_retrieval_witness :
    ((_extract_transcript_from_deepgram c3_decoded).2.1 = false ∨
      (_extract_transcript_from_deepgram c3_decoded).1 = "") ∧
    rag_calls (handle_text_message c3_decoded "T" rag_ok) = [] ∧
    sts_sends (handle_text_message c3_decoded "T" rag_ok) = [] := by
  have h := handle_text_message_nonfinal_no_retrieval c3_decoded "T" rag_ok
    (Or.inr (by decide))
  exact ⟨Or.inr (by decide), h.1, h.2⟩

/-- C5: for every decoded control event whose extracted transcript is
non-empty and finalized, if the knowledge retriever raises, then
`handle_text_message` substitutes the fallback sentinel `"No relevant
context."` as the context, the composed instruction text contains that
sentinel, and exactly one `response.create` injection is still sent on the
Deepgram websocket, carrying the stripped instruction text — the error does
not propagate. -/
theorem handle_text_message_rag_failure_fallback
    (decoded : Decoded) (sid err : String)
    (ht : (_extract_transcript_from_deepgram decoded).1 ≠ "")
    (hf : (_extract_transcript_from_deepgram decoded).2.1 = true) :
    sts_sends (handle_text_message decoded sid (fun _ => Except.error err)) =
      [("response.create", (_extract_transcript_from_deepgram decoded).2.2,
        py_strip (instructions_text (_extract_transcript_from_deepgram decoded).1
          "No relevant context."))] ∧
    ∃ pre post,
      instructions_text (_extract_transcript_from_deepgram decoded).1
          "No relevant context." =
        pre ++ "No relevant context." ++ post := by
  constructor
  · rw [handle_text_message_unfold, if_neg ht, if_neg (by simp [hf])]
    simp [sts_sends]
  · exact ⟨persona_preamble ++ (_extract_transcript_from_deepgram decoded).1 ++
      context_header, instructions_coda, rfl⟩

/-- Witness for C5 at a concrete input: a finalized non-empty transcript with
a failing retriever. -/
theorem handle_text_message_rag_failure_fallback_witness :
    ((_extract_transcript_from_deepgram c5_decoded).1 ≠ "") ∧
    ((_extract_transcript_from_deepgram c5_decoded).2.1 = true) ∧
    (sts_sends (handle_text_message c5_decoded "S" (fun _ => Except.error "boom")) =
      [("response.create", (_extract_transcript_from_deepgram c5_decoded).2.2,
        py_strip (instructions_text (_extract_transcript_from_deepgram c5_decoded).1
          "No relevant context."))]) ∧
    ∃ pre post,
      instructions_text (_extract_transcript_from_deepgram c5_decoded).1
          "No relevant context." =
        pre ++ "No relevant context." ++ post := by
  have h := handle_text_message_rag_failure_fallback c5_decoded "S" "boom"
    (by decide) (by decide)
  exact ⟨by decide, by decide, h.1, h.2⟩

/-- C7 counterexample: the claim as stated is false.  On a Deepgram text
message that fails JSON decoding, `sts_receiver` terminates immediately: the
subsequent binary audio message is never relayed to the Twilio transport. -/
theorem sts_receiver_parse_failure_stops_loop_cex :
    sts_receiver json_fail rag_ok "S" [AgentMsg.text "oops", AgentMsg.binary [1, 2]] = [] ∧
    Action.twilioMedia "S" [1, 2] ∉
      sts_receiver json_fail rag_ok "S" [AgentMsg.text "oops", AgentMsg.binary [1, 2]] := by
  constructor
  · rfl
  · decide

/-- C7 (amended): for every agent-transport text message that fails to parse
as JSON, the decode error propagates uncaught out of the `async for` body —
`sts_receiver` terminates at that message and processes no subsequent message,
emitting no further action (the failure is neither caught nor logged inside
the loop). -/
theorem sts_receiver_parse_failure_terminates
    (parse : String → Except String Decoded) (rag : String → Except String String)
    (sid raw err : String) (rest : List AgentMsg)
    (h : parse raw = Except.error err) :
    sts_receiver parse rag sid (AgentMsg.text raw :: rest) = [] := by
  simp [sts_receiver, h]

/-- Witness for the amended C7 at a concrete input. -/
theorem sts_receiver_parse_failure_terminates_witness :
    (json_fail "oops" = Except.error "Expecting value: line 1 column 1 (char 0)") ∧
    sts_receiver json_fail rag_ok "S" [AgentMsg.text "oops", AgentMsg.binary [3]] = [] :=
  ⟨rfl, sts_receiver_parse_failure_terminates json_fail rag_ok "S" "oops"
    "Expecting value: line 1 column 1 (char 0)" [AgentMsg.binary [3]] rfl⟩

/-! ## Claims about the session-identifier writes -/

/-- Over a run without terminating events, the streamsid queue receives
exactly the stream ids of the start events, in order, appended to what it
already held. -/
theorem twilioRun_sids (events : List InEvent) :
    ∀ st : TRState, (∀ e ∈ events, isTerminal e = false) →
      (twilioRun st events).streamsid_queue =
        st.streamsid_queue ++ events.filterMap startSid := by
  induction events with
  | nil =>
      intro st _
      simp [twilioRun]
  | cons e es ih =>
      intro st h
      have he : isTerminal e = false := h e (List.mem_cons_self e es)
      have hes : ∀ x ∈ es, isTerminal x = false :=
        fun x hx => h x (List.mem_cons_of_mem e hx)
      cases e with
      | start sid =>
          simp only [twilioRun, twilioStep]
          rw [ih _ hes]
          simp [startSid]
      | media chunk =>
          simp only [twilioRun, twilioStep]
          rw [ih _ hes]
          simp [startSid]
      | stop => simp [isTerminal] at he
      | other =>
          simp only [twilioRun, twilioStep]
          rw [ih _ hes]
          simp [startSid]
      | malformed => simp [isTerminal] at he

/-- C9 counterexample: the claim as stated is false.  Two `start` events in
one session write the session-identifier queue twice: every processed `start`
event performs `streamsid_queue.put_nowait`, with no write-once guard. -/
theorem twilio_receiver_second_start_writes_again :
    (twilio_receiver [InEvent.start "A", InEvent.start "A"]).streamsid_queue =
      ["A", "A"] ∧
    (twilio_receiver [InEvent.start "A", InEvent.start "A"]).streamsid_queue.length ≠ 1 := by
  have h : twilio_receiver [InEvent.start "A", InEvent.start "A"] =
      ⟨[], [], ["A", "A"]⟩ := by
    simp [twilio_receiver, twilioRun, twilioStep, drainLoop_nil]
  rw [h]
  exact ⟨rfl, by decide⟩

/-- C9 (amended): every processed inbound `start` event publishes its stream
id to the session-identifier queue — over any inbound sequence free of
terminating events, the queue receives exactly the stream ids of the start
events in order, so it is written exactly once precisely when one start event
arrives; repeated starts write repeatedly (they are not ignored). -/
theorem twilio_receiver_sid_writes_per_start (events : List InEvent)
    (h : ∀ e ∈ events, isTerminal e = false) :
    (twilio_receiver events).streamsid_queue = events.filterMap startSid := by
  have := twilioRun_sids events ⟨[], [], []⟩ h
  simpa [twilio_receiver] using this

/-- Witness for the amended C9 at a concrete input: a start event followed by
a media chunk and a repeated start. -/
theorem twilio_receiver_sid_writes_per_start_witness :
    (∀ e ∈ [InEvent.start "A", InEvent.media [7], InEvent.start "B"],
        isTerminal e = false) ∧
    (twilio_receiver [InEvent.start "A", InEvent.media [7], InEvent.start "B"]).streamsid_queue =
      [InEvent.start "A", InEvent.media [7], InEvent.start "B"].filterMap startSid := by
  have h := twilio_receiver_sid_writes_per_start
    [InEvent.start "A", InEvent.media [7], InEvent.start "B"] (by decide)
  exact ⟨by decide, h⟩

/-! ## Claims about the knowledge retriever -/

/-- The collection loop of `rag_retrieve` appends exactly the `answer`
entries of the truthy-metadata matches, in order. -/
theorem rag_loop_eq_append (ms : List RagMatch) :
    ∀ acc : List String, rag_loop ms acc = acc ++ answersOf ms := by
  induction ms with
  | nil =>
      intro acc
      simp [rag_loop, answersOf]
  | cons m tail ih =>
      intro acc
      cases hm : m.metadata with
      | none => simp [rag_loop, answersOf, hm, ih]
      | some md =>
          by_cases hmd : md = []
          · simp [rag_loop, answersOf, hm, hmd, ih]
          · cases hl : List.lookup "answer" md with
            | none => simp [rag_loop, answersOf, hm, hmd, hl, ih]
            | some a => simp [rag_loop, answersOf, hm, hmd, hl, ih]

/-- C8: for every query on which retrieval succeeds (the Pinecone `top_k = 3`
query returns at most three matches), the returned context is the
newline-join of the collected answer snippets — at most three of them — and
the fallback sentinel `"No relevant context."` is returned when no snippet
matches. -/
theorem rag_retrieve_join_top3 (ms : List RagMatch) (h : ms.length ≤ 3) :
    rag_retrieve ms =
      (if answersOf ms = [] then "No relevant context."
       else String.intercalate "\n" (answersOf ms)) ∧
    (answersOf ms).length ≤ 3 := by
  constructor
  · unfold rag_retrieve
    rw [rag_loop_eq_append ms [], List.nil_append]
  · exact le_trans (List.length_filterMap_le _ _) h

/-- Witness for C8 at a concrete input: three matches, of which only the first
carries an `answer` metadata entry. -/
theorem rag_retrieve_join_top3_witness :
    c8_matches.length ≤ 3 ∧
    (rag_retrieve c8_matches =
      (if answersOf c8_matches = [] then "No relevant context."
       else String.intercalate "\n" (answersOf c8_matches)) ∧
      (answersOf c8_matches).length ≤ 3) :=
  ⟨by decide, rag_retrieve_join_top3 c8_matches (by decide)⟩

/-- C10: for every non-empty successful match list in which no match carries
an `answer` metadata entry, `rag_retrieve` returns the sentinel
`"No relevant context."` even though retrieval succeeded with non-empty
matches. -/
theorem rag_retrieve_no_answer_metadata_sentinel (ms : List RagMatch)
    (hne : ms ≠ [])
    (h : ∀ m ∈ ms, ∀ md, m.metadata = some md →
        List.lookup "answer" md = none) :
    rag_retrieve ms = "No relevant context." := by
  have hans : answersOf ms = [] := by
    unfold answersOf
    rw [List.filterMap_eq_nil_iff]
    intro m hm
    cases hmd : m.metadata with
    | none => simp [hmd]
    | some md =>
        by_cases hnil : md = []
        · simp [hmd, hnil]
        · simp [hmd, hnil, h m hm md hmd]
  unfold rag_retrieve
  rw [rag_loop_eq_append ms [], List.nil_append, hans]
  rfl

/-- Witness for C10 at a concrete input: one match whose metadata has only a
`question` entry. -/
theorem rag_retrieve_no_answer_metadata_sentinel_witness :
    c10_matches ≠ [] ∧
    (∀ m ∈ c10_matches, ∀ md, m.metadata = some md →
        List.lookup "answer" md = none) ∧
    rag_retrieve c10_matches = "No relevant context." := by
  have hp : ∀ m ∈ c10_matches, ∀ md, m.metadata = some md →
      List.lookup "answer" md = none := by
    intro m hm md hmd
    simp only [c10_matches, List.mem_singleton] at hm
    subst hm
    simp only [c10_matches] at hmd
    cases hmd
    decide
  exact ⟨by decide, hp, rag_retrieve_no_answer_metadata_sentinel c10_matches (by decide) hp⟩

end VoiceAgent
